import Mathlib

/-!
# Verification of `shift_mtimes.py`

A shallow embedding of the vault-shift-mtimes tool: a recursive directory
walker that, for files whose modification time precedes a cutoff date,
computes a shifted timestamp by adding a calendar offset (months, days) to
`max(mtime, ctime)` and reports the intended change.

Modelling conventions:
* epoch times are integers (seconds since 1970-01-01 00:00:00), with the
  local timezone taken to be UTC so that `datetime.fromtimestamp` and
  `datetime.timestamp` are inverse to the Gregorian-calendar conversion;
* `datetime.datetime` values are `(year, month, day, secondsOfDay)` records,
  compared field-lexicographically, which agrees with chronological order on
  valid datetimes;
* Python exceptions raised inside the lazily-consumed generator pipeline are
  modelled by returning the list of items produced before the exception
  together with a success flag.
-/

namespace ShiftMtimes

/-- A naive `datetime.datetime`: calendar fields plus seconds within the day.
Time-of-day below one day is collapsed into `sec`; `relativedelta` arithmetic
never touches it. -/
@[ext] structure DateTime where
  year : Int
  month : Nat
  day : Nat
  sec : Nat
  deriving Repr, DecidableEq

/-- Gregorian leap-year rule, as used by Python's `calendar` module. -/
def isLeapYear (y : Int) : Bool :=
  y % 4 = 0 && (y % 100 ≠ 0 || y % 400 = 0)

/-- Embeds `calendar.monthrange(y, m)[1]`: the number of days in a month. -/
def daysInMonth (y : Int) (m : Nat) : Nat :=
  if m = 2 then (if isLeapYear y then 29 else 28)
  else if m = 4 ∨ m = 6 ∨ m = 9 ∨ m = 11 then 30
  else 31

/-- A `DateTime` that Python's `datetime` constructor would accept:
month in 1..12, day in 1..(length of that month), sec below one day. -/
def DateTime.Valid (d : DateTime) : Prop :=
  1 ≤ d.month ∧ d.month ≤ 12 ∧ 1 ≤ d.day ∧ d.day ≤ daysInMonth d.year d.month ∧ d.sec < 86400

instance (d : DateTime) : Decidable d.Valid := by
  unfold DateTime.Valid; infer_instance

/-- The months part of `dateutil.relativedelta.relativedelta.__radd__`:
normalise `month + n` with floor divmod into the year, then clamp the
day-of-month to the length of the resulting month. -/
def addMonthsClamped (d : DateTime) (n : Nat) : DateTime :=
  { year := d.year + ((d.month - 1 + n) / 12 : Nat)
    month := (d.month - 1 + n) % 12 + 1
    day := min d.day (daysInMonth (d.year + ((d.month - 1 + n) / 12 : Nat))
                        ((d.month - 1 + n) % 12 + 1))
    sec := d.sec }

/-- Advance a datetime by one calendar day, rolling over month and year ends. -/
def nextDay (d : DateTime) : DateTime :=
  if d.day + 1 ≤ daysInMonth d.year d.month then
    { d with day := d.day + 1 }
  else if d.month + 1 ≤ 12 then
    { d with month := d.month + 1, day := 1 }
  else
    { d with year := d.year + 1, month := 1, day := 1 }

/-- The days part of `relativedelta`: `+ timedelta(days = n)`, as `n`
applications of `nextDay`. -/
def addDays (d : DateTime) : Nat → DateTime
  | 0 => d
  | n + 1 => nextDay (addDays d n)

/-- Embeds `add_months_days_to_datetime(datetime_, n_months_, n_days_)` from the
source: `datetime_ + relativedelta(months=n_months_, days=n_days_)`, i.e.
calendar months with day clamping, then calendar days. -/
def add_months_days_to_datetime (d : DateTime) (nMonths nDays : Nat) : DateTime :=
  addDays (addMonthsClamped d nMonths) nDays

/-- Chronological strict order on datetimes: field-lexicographic, which is
how Python compares (valid) naive `datetime` values. -/
def dtLt (a b : DateTime) : Prop :=
  a.year < b.year ∨
    (a.year = b.year ∧ (a.month < b.month ∨
      (a.month = b.month ∧ (a.day < b.day ∨
        (a.day = b.day ∧ a.sec < b.sec)))))

/-- Chronological non-strict order on datetimes. -/
def dtLe (a b : DateTime) : Prop := dtLt a b ∨ a = b

instance (a b : DateTime) : Decidable (dtLt a b) := by
  unfold dtLt; infer_instance

instance (a b : DateTime) : Decidable (dtLe a b) := by
  unfold dtLe; infer_instance

/-!
## Epoch conversions

`civilFromDays`/`daysFromCivil` are the standard Gregorian conversions
between a day count from 1970-01-01 and a civil `(year, month, day)` triple.
They embed `datetime.fromtimestamp` / `datetime.timestamp` with the local
timezone fixed to UTC.
-/

/-- Convert a count of days since 1970-01-01 to a civil Gregorian date. -/
def civilFromDays (z0 : Int) : Int × Nat × Nat :=
  let z : Int := z0 + 719468
  let era : Int := z.fdiv 146097
  let doe : Nat := (z - era * 146097).toNat
  let yoe : Nat := (doe - doe / 1460 + doe / 36524 - doe / 146096) / 365
  let y : Int := (yoe : Int) + era * 400
  let doy : Nat := doe - (365 * yoe + yoe / 4 - yoe / 100)
  let mp : Nat := (5 * doy + 2) / 153
  let d : Nat := doy - (153 * mp + 2) / 5 + 1
  if mp < 10 then (y, mp + 3, d) else (y + 1, mp - 9, d)

/-- Convert a civil Gregorian date to a count of days since 1970-01-01. -/
def daysFromCivil (y : Int) (m d : Nat) : Int :=
  let yAdj : Int := if m ≤ 2 then y - 1 else y
  let era : Int := yAdj.fdiv 400
  let yoe : Nat := (yAdj - era * 400).toNat
  let mp : Nat := if 2 < m then m - 3 else m + 9
  let doy : Nat := (153 * mp + 2) / 5 + d - 1
  let doe : Nat := yoe * 365 + yoe / 4 - yoe / 100 + doy
  era * 146097 + (doe : Int) - 719468

/-- Embeds `epochs_to_datetime(epochtime_)`: `datetime.datetime.fromtimestamp`. -/
def epochs_to_datetime (e : Int) : DateTime :=
  let days : Int := e.fdiv 86400
  let c := civilFromDays days
  { year := c.1, month := c.2.1, day := c.2.2, sec := (e.emod 86400).toNat }

/-- Embeds `datetime_to_epochs(datetime_)`: `datetime_.timestamp()`. -/
def datetime_to_epochs (d : DateTime) : Int :=
  daysFromCivil d.year d.month d.day * 86400 + d.sec

/-- Left-pad the decimal rendering of `n` with zeros to width `w`, as
`strftime` does for `%Y`, `%m`, `%d`. -/
def padNum (w : Nat) (n : Nat) : String :=
  let s := toString n
  String.mk (List.replicate (w - s.length) '0') ++ s

/-- Embeds `datetime_to_datetime_str(datetime_)` with the default format
`%Y-%m-%d`: a date-only string. -/
def datetime_to_datetime_str (d : DateTime) : String :=
  padNum 4 d.year.toNat ++ "-" ++ padNum 2 d.month ++ "-" ++ padNum 2 d.day

/-- Embeds `epochs_to_datetime_str(epochs_)`: compose conversion and formatting. -/
def epochs_to_datetime_str (e : Int) : String :=
  datetime_to_datetime_str (epochs_to_datetime e)

/-!
## Filesystem model

A directory tree as seen by `Path.iterdir` / `os.stat`.  A file entry
carries the stat times; `symlink` is what `is_symlink()` reports;
`vanishes` marks a file that is still listed by `iterdir` but is gone by
the time `os.stat` runs (the concurrent-removal race); `readable = false`
on a directory makes `iterdir` raise `PermissionError`.
-/

/-- Metadata of one regular-file directory entry. -/
structure FileInfo where
  path : String
  symlink : Bool
  vanishes : Bool
  atime : Int
  mtime : Int
  ctime : Int
  deriving Repr, DecidableEq

/-- The listing of one directory, in `iterdir` order: each node is a file
entry or a subdirectory entry (with its own listing) followed by the rest
of the listing. -/
inductive FSDir where
  | nil : FSDir
  | file (info : FileInfo) (rest : FSDir)
  | sub (path : String) (symlink readable : Bool) (children : FSDir) (rest : FSDir)
  deriving Repr, DecidableEq

/-- Embeds `yield_files(dir_)`: all files among the entries of one directory,
ignoring symbolic links. -/
def yield_files : FSDir → List FileInfo
  | FSDir.nil => []
  | FSDir.file info rest =>
    if info.symlink then yield_files rest else info :: yield_files rest
  | FSDir.sub _ _ _ _ rest => yield_files rest

/-- Embeds `yield_directories(dir_)`: the `(readable, children)` data of the
directories among the entries of one directory, ignoring symbolic links. -/
def yield_directories : FSDir → List (Bool × FSDir)
  | FSDir.nil => []
  | FSDir.file _ rest => yield_directories rest
  | FSDir.sub _ sym readable cs rest =>
    if sym then yield_directories rest
    else (readable, cs) :: yield_directories rest

/-- The recursion of `yield_files_recursive` over the non-symlink
subdirectories of a listing: for each one in turn, if it is readable,
yield its full recursive listing (its own files first, then its
subdirectories' — the inner `yield from yield_files_recursive`), aborting
at the first unreadable one (`PermissionError` from `iterdir`).  The
`Bool` is `false` exactly when the walk raised; the list holds the files
yielded before the exception, in order. -/
def walkSubdirs : FSDir → List FileInfo × Bool
  | FSDir.nil => ([], true)
  | FSDir.file _ rest => walkSubdirs rest
  | FSDir.sub _ sym readable cs rest =>
    if sym then walkSubdirs rest
    else if readable then
      match walkSubdirs cs with
      | (out, true) => let r := walkSubdirs rest; (yield_files cs ++ out ++ r.1, r.2)
      | (out, false) => (yield_files cs ++ out, false)
    else ([], false)

/-- Embeds `yield_files_recursive(dir_)` applied to the listing of a readable
directory: the generator first yields the directory's own files, then
recurses into each non-symlink subdirectory.  The `Bool` is `true` when
the generator ran to exhaustion and `false` when it raised. -/
def yield_files_recursive (d : FSDir) : List FileInfo × Bool :=
  let r := walkSubdirs d
  (yield_files d ++ r.1, r.2)

/-- The dictionary built by `file_to_dict(file_)` from `os.stat`. -/
structure FileRecord where
  mtime_epoch : Int
  ctime_epoch : Int
  max_mt_ct_epoch : Int
  max_mt_ct_dt : DateTime
  mtime_str : String
  ctime_str : String
  max_mt_ct_str : String
  file : String
  deriving Repr, DecidableEq

/-- Embeds `file_to_dict(file_)`: stat the file and derive the timestamp fields.
`os.stat` raises `FileNotFoundError` when the file vanished after being
listed, modelled by `Except.error`. -/
def file_to_dict (f : FileInfo) : Except Unit FileRecord :=
  if f.vanishes then Except.error () else
    Except.ok
      { mtime_epoch := f.mtime
        ctime_epoch := f.ctime
        max_mt_ct_epoch := max f.mtime f.ctime
        max_mt_ct_dt := epochs_to_datetime (max f.mtime f.ctime)
        mtime_str := epochs_to_datetime_str f.mtime
        ctime_str := epochs_to_datetime_str f.ctime
        max_mt_ct_str := epochs_to_datetime_str (max f.mtime f.ctime)
        file := f.path }

/-- Embeds `os.utime(path, (ep, ep))` on a tree: set the atime and mtime of every
file entry at `path` to `ep`. -/
def setTimes (path : String) (ep : Int) : FSDir → FSDir
  | FSDir.nil => FSDir.nil
  | FSDir.file info rest =>
    if info.path = path then
      FSDir.file { info with atime := ep, mtime := ep } (setTimes path ep rest)
    else FSDir.file info (setTimes path ep rest)
  | FSDir.sub n s r cs rest => FSDir.sub n s r (setTimes path ep cs) (setTimes path ep rest)

/-- Embeds `set_mtime_ctime_to_datetime(file_, datetime_)` as a filesystem-state
transformer: set the file's atime and mtime to the datetime's epoch value.
Present in the source but never called (its only call site is commented
out). -/
def set_mtime_ctime_to_datetime (file : String) (dt : DateTime) (fs : FSDir) : FSDir :=
  setTimes file (datetime_to_epochs dt) fs

/-- Embeds `shift_mtime(file_, datetime_to_shift, shift_add_months_, shift_add_days_)`:
compute the shifted datetime and return the descriptive record.  The call
`set_mtime_ctime_to_datetime(file_, new_mtime)` is commented out in the
source, so the filesystem state is returned unchanged. -/
def shift_mtime (fs : FSDir) (file : String) (datetime_to_shift : DateTime)
    (shift_add_months shift_add_days : Nat) : FSDir × String :=
  let new_mtime := add_months_days_to_datetime datetime_to_shift shift_add_months shift_add_days
  (fs, "file:" ++ file ++ ",new_mtime:" ++ datetime_to_datetime_str new_mtime)

/-- The filter predicate of the pipeline (line 127 of the source):
keep records whose raw `mtime_epoch` is strictly below the cutoff's epoch
value. -/
def selectedByCutoff (v : FileRecord) (shift_older_than_cutoff : DateTime) : Bool :=
  decide (v.mtime_epoch < datetime_to_epochs shift_older_than_cutoff)

/-- Consume the walker's yields one at a time through
`map file_to_dict ∘ filter cutoff ∘ map shift_mtime`, threading the
filesystem state.  A `FileNotFoundError` from `file_to_dict` aborts
consumption (`Bool` result `false`), keeping the records emitted before
it. -/
def processFiles (shift_add_months shift_add_days : Nat) (cutoff : DateTime)
    (fs : FSDir) : List FileInfo → List String × Bool × FSDir
  | [] => ([], true, fs)
  | f :: rest =>
    match file_to_dict f with
    | Except.error _ => ([], false, fs)
    | Except.ok v =>
      if selectedByCutoff v cutoff then
        let r := shift_mtime fs v.file v.max_mt_ct_dt shift_add_months shift_add_days
        let p := processFiles shift_add_months shift_add_days cutoff r.1 rest
        (r.2 :: p.1, p.2)
      else processFiles shift_add_months shift_add_days cutoff fs rest

/-- Embeds `shift_files_mtimes_recursively(shift_add_months, shift_add_days,
shift_older_than_cutoff)` applied to the entries of the (readable,
validated) input directory: walk recursively, stat each file, filter by
the cutoff, and emit one descriptive record per selected file.  Returns
the emitted records in order, whether the run completed without an
exception, and the final filesystem state. -/
def shift_files_mtimes_recursively (shift_add_months shift_add_days : Nat)
    (shift_older_than_cutoff : DateTime) (root : FSDir) :
    List String × Bool × FSDir :=
  let w := yield_files_recursive root
  let p := processFiles shift_add_months shift_add_days shift_older_than_cutoff root w.1
  (p.1, p.2.1 && w.2, p.2.2)

/-!
## Statement-side derived notions
-/

/-- The descriptive record the pipeline emits for a file: path plus the
shifted `max(mtime, ctime)` datetime, date-formatted. -/
def recordString (shift_add_months shift_add_days : Nat) (f : FileInfo) : String :=
  "file:" ++ f.path ++ ",new_mtime:" ++
    datetime_to_datetime_str
      (add_months_days_to_datetime (epochs_to_datetime (max f.mtime f.ctime))
        shift_add_months shift_add_days)

/-- Whether a listing contains, at top level, a non-symlink directory
entry that is not readable. -/
def hasRealUnreadableDir : FSDir → Bool
  | FSDir.nil => false
  | FSDir.file _ rest => hasRealUnreadableDir rest
  | FSDir.sub _ sym readable _ rest =>
    (!sym && !readable) || hasRealUnreadableDir rest

/-- Whether some file of a list vanishes before it can be statted. -/
def anyVanishes (l : List FileInfo) : Bool :=
  l.any (fun f => f.vanishes)

/-- A file entry is reachable from a listing through non-symlink directory
entries only: it sits in the listing itself, or inside a subdirectory
entry that is not a symbolic link (readable or not), recursively. -/
inductive ViaRealDirs : FSDir → FileInfo → Prop where
  | here (info : FileInfo) (rest : FSDir) : ViaRealDirs (FSDir.file info rest) info
  | skipFile (info : FileInfo) (rest : FSDir) (f : FileInfo) :
      ViaRealDirs rest f → ViaRealDirs (FSDir.file info rest) f
  | skipDir (p : String) (sym readable : Bool) (cs rest : FSDir) (f : FileInfo) :
      ViaRealDirs rest f → ViaRealDirs (FSDir.sub p sym readable cs rest) f
  | intoDir (p : String) (readable : Bool) (cs rest : FSDir) (f : FileInfo) :
      ViaRealDirs cs f → ViaRealDirs (FSDir.sub p false readable cs rest) f

/-!
## Order lemmas for datetimes
-/

theorem dtLt_trans {a b c : DateTime} (h1 : dtLt a b) (h2 : dtLt b c) : dtLt a c := by
  unfold dtLt at h1 h2 ⊢; omega

theorem dtLt_irrefl (a : DateTime) : ¬ dtLt a a := by
  unfold dtLt; omega

theorem dtLt_of_le_of_lt {a b c : DateTime} (h1 : dtLe a b) (h2 : dtLt b c) : dtLt a c := by
  cases h1 with
  | inl h => exact dtLt_trans h h2
  | inr h => exact h ▸ h2

theorem dtLe_trans {a b c : DateTime} (h1 : dtLe a b) (h2 : dtLe b c) : dtLe a c := by
  cases h2 with
  | inl h => exact Or.inl (dtLt_of_le_of_lt h1 h)
  | inr h => exact h ▸ h1

theorem nextDay_lt (d : DateTime) : dtLt d (nextDay d) := by
  unfold nextDay dtLt
  split
  · simp
  · split <;> simp

theorem addDays_le (d : DateTime) (n : Nat) : dtLe d (addDays d n) := by
  induction n with
  | zero => exact Or.inr rfl
  | succ k ih => exact Or.inl (dtLt_of_le_of_lt ih (nextDay_lt (addDays d k)))

theorem addDays_lt (d : DateTime) (n : Nat) (hn : 0 < n) : dtLt d (addDays d n) := by
  cases n with
  | zero => omega
  | succ k => exact dtLt_of_le_of_lt (addDays_le d k) (nextDay_lt (addDays d k))

theorem addMonths_lt (d : DateTime) (n : Nat) (hn : 0 < n) : dtLt d (addMonthsClamped d n) := by
  unfold addMonthsClamped dtLt
  simp only
  omega

theorem addMonths_zero (d : DateTime) (hv : d.Valid) : addMonthsClamped d 0 = d := by
  obtain ⟨h1, h2, h3, h4, h5⟩ := hv
  have hy : d.year + (((d.month - 1 + 0) / 12 : Nat) : Int) = d.year := by omega
  have hm : (d.month - 1 + 0) % 12 + 1 = d.month := by omega
  unfold addMonthsClamped
  ext
  · exact hy
  · exact hm
  · rw [hy, hm]; simpa using h4
  · rfl

theorem addMonths_le (d : DateTime) (n : Nat) (hv : d.Valid) :
    dtLe d (addMonthsClamped d n) := by
  cases n with
  | zero => exact Or.inr (addMonths_zero d hv).symm
  | succ k => exact Or.inl (addMonths_lt d (k + 1) (Nat.succ_pos k))

theorem dtLt_of_lt_of_le {a b c : DateTime} (h1 : dtLt a b) (h2 : dtLe b c) : dtLt a c := by
  cases h2 with
  | inl h => exact dtLt_trans h1 h
  | inr h => exact h ▸ h1

/-!
## Claims about the shift calculator
-/

/-- C2: the shift calculator adds calendar months and then calendar days to
the reference datetime, clamping the day-of-month to the last valid day of
the target month; in particular 2023-01-31 + 1 month = 2023-02-28,
2020-01-31 + 1 month = 2020-02-29 (leap year), and 2023-03-15 + 20 days =
2023-04-04. -/
theorem add_months_days_calendar_semantics :
    (∀ (d : DateTime) (m n : Nat),
        add_months_days_to_datetime d m n = addDays (addMonthsClamped d m) n) ∧
    (∀ (d : DateTime) (m : Nat),
        (addMonthsClamped d m).day
          = min d.day (daysInMonth (addMonthsClamped d m).year (addMonthsClamped d m).month)) ∧
    add_months_days_to_datetime ⟨2023, 1, 31, 0⟩ 1 0 = ⟨2023, 2, 28, 0⟩ ∧
    add_months_days_to_datetime ⟨2020, 1, 31, 0⟩ 1 0 = ⟨2020, 2, 29, 0⟩ ∧
    add_months_days_to_datetime ⟨2023, 3, 15, 0⟩ 0 20 = ⟨2023, 4, 4, 0⟩ :=
  ⟨fun _ _ _ => rfl, fun _ _ => rfl, by decide, by decide, by decide⟩

/-- C10: for every valid reference datetime and non-negative month and day
offsets, the shifted datetime is never earlier than the reference, and it
equals the reference exactly when both offsets are zero. -/
theorem shift_monotone (d : DateTime) (m n : Nat) (hv : d.Valid) :
    dtLe d (add_months_days_to_datetime d m n) ∧
    (add_months_days_to_datetime d m n = d ↔ m = 0 ∧ n = 0) := by
  have hle : dtLe d (add_months_days_to_datetime d m n) :=
    dtLe_trans (addMonths_le d m hv) (addDays_le (addMonthsClamped d m) n)
  have hstrict : m ≠ 0 ∨ n ≠ 0 → dtLt d (add_months_days_to_datetime d m n) := by
    intro hor
    rcases Nat.eq_zero_or_pos m with hm | hm
    · subst hm
      have hn : 0 < n := by omega
      unfold add_months_days_to_datetime
      rw [addMonths_zero d hv]
      exact addDays_lt d n hn
    · exact dtLt_of_lt_of_le (addMonths_lt d m hm) (addDays_le (addMonthsClamped d m) n)
  refine ⟨hle, ?_, ?_⟩
  · intro heq
    by_contra hne
    have hlt := hstrict (by omega)
    rw [heq] at hlt
    exact dtLt_irrefl d hlt
  · rintro ⟨hm, hn⟩
    subst hm; subst hn
    unfold add_months_days_to_datetime addDays
    exact addMonths_zero d hv

/-- Witness for C10 at the concrete reference datetime 2023-01-31 with a
(1 month, 2 days) offset. -/
theorem shift_monotone_instance :
    DateTime.Valid ⟨2023, 1, 31, 0⟩ ∧
    (dtLe ⟨2023, 1, 31, 0⟩ (add_months_days_to_datetime ⟨2023, 1, 31, 0⟩ 1 2) ∧
      (add_months_days_to_datetime ⟨2023, 1, 31, 0⟩ 1 2 = ⟨2023, 1, 31, 0⟩ ↔ 1 = 0 ∧ 2 = 0)) :=
  ⟨by decide, shift_monotone ⟨2023, 1, 31, 0⟩ 1 2 (by decide)⟩

/-!
## Claims about the filter, the extractor and the frame
-/

/-- C3: the cutoff filter's boundary is strict: a record whose
`mtime_epoch` equals the cutoff's epoch value is not selected, and a
record whose `mtime_epoch` is any amount below it is selected. -/
theorem cutoff_strict_boundary (v : FileRecord) (cutoff : DateTime) :
    (v.mtime_epoch = datetime_to_epochs cutoff → selectedByCutoff v cutoff = false) ∧
    (v.mtime_epoch < datetime_to_epochs cutoff → selectedByCutoff v cutoff = true) := by
  unfold selectedByCutoff
  constructor
  · intro h; simp [h]
  · intro h; simp [h]

/-- Witness for C3: with cutoff 2023-06-01 (epoch 1685577600), a record at
exactly the cutoff is rejected and a record one second earlier is kept. -/
theorem cutoff_strict_boundary_instance :
    selectedByCutoff ⟨1685577600, 0, 0, ⟨1970, 1, 1, 0⟩, "", "", "", "/r/a"⟩
      ⟨2023, 6, 1, 0⟩ = false ∧
    selectedByCutoff ⟨1685577599, 0, 0, ⟨1970, 1, 1, 0⟩, "", "", "", "/r/b"⟩
      ⟨2023, 6, 1, 0⟩ = true :=
  ⟨(cutoff_strict_boundary _ _).1 (by decide), (cutoff_strict_boundary _ _).2 (by decide)⟩

/-- C8: every record the metadata extractor returns stores
`max(mtime_epoch, ctime_epoch)` in its max-time field. -/
theorem max_epoch_invariant (f : FileInfo) (v : FileRecord)
    (h : file_to_dict f = Except.ok v) :
    v.max_mt_ct_epoch = max v.mtime_epoch v.ctime_epoch := by
  unfold file_to_dict at h
  split at h
  · exact Except.noConfusion h
  · injection h with h2
    rw [← h2]

/-- Witness for C8 at a concrete file with mtime 2023-01-01 and ctime
2023-05-01. -/
theorem max_epoch_invariant_instance :
    (⟨1672531200, 1682899200, 1682899200, ⟨2023, 5, 1, 0⟩,
        "2023-01-01", "2023-05-01", "2023-05-01", "/r/a"⟩ : FileRecord).max_mt_ct_epoch
      = max 1672531200 1682899200 :=
  max_epoch_invariant ⟨"/r/a", false, false, 0, 1672531200, 1682899200⟩ _ (by rfl)

theorem processFiles_fs_eq (m d : Nat) (c : DateTime) (fs : FSDir) (l : List FileInfo) :
    (processFiles m d c fs l).2.2 = fs := by
  induction l generalizing fs with
  | nil => rfl
  | cons f rest ih =>
    unfold processFiles
    cases hfd : file_to_dict f with
    | error e => rfl
    | ok v =>
      by_cases hsel : selectedByCutoff v c = true
      · simp only [hsel, if_true, shift_mtime]
        exact ih fs
      · simp only [hsel, if_false, Bool.false_eq_true]
        exact ih fs

/-- C6: no run changes any file's timestamps: the per-file step returns
the filesystem unchanged together with the descriptive record (the
`set_mtime_ctime_to_datetime` call is commented out), so the final
filesystem state of every run equals the initial one. -/
theorem run_never_mutates_filesystem (m d : Nat) (cutoff : DateTime) (root : FSDir) :
    (shift_files_mtimes_recursively m d cutoff root).2.2 = root ∧
    (∀ (fs : FSDir) (p : String) (dt : DateTime), (shift_mtime fs p dt m d).1 = fs) :=
  ⟨processFiles_fs_eq m d cutoff root (yield_files_recursive root).1, fun _ _ _ => rfl⟩

/-!
## Claims about the pipeline's output
-/

theorem file_to_dict_of_not_vanishes (f : FileInfo) (hv : f.vanishes = false) :
    file_to_dict f = Except.ok
      ⟨f.mtime, f.ctime, max f.mtime f.ctime, epochs_to_datetime (max f.mtime f.ctime),
        epochs_to_datetime_str f.mtime, epochs_to_datetime_str f.ctime,
        epochs_to_datetime_str (max f.mtime f.ctime), f.path⟩ := by
  unfold file_to_dict
  rw [hv]
  rfl

theorem processFiles_no_vanish (m d : Nat) (c : DateTime) (fs : FSDir)
    (l : List FileInfo) (h : ∀ f ∈ l, f.vanishes = false) :
    (processFiles m d c fs l).1
      = (l.filter fun f => decide (f.mtime < datetime_to_epochs c)).map (recordString m d) ∧
    (processFiles m d c fs l).2.1 = true := by
  induction l generalizing fs with
  | nil => exact ⟨rfl, rfl⟩
  | cons f rest ih =>
    have hf : f.vanishes = false := h f (List.mem_cons_self f rest)
    have hrest : ∀ g ∈ rest, g.vanishes = false := fun g hg => h g (List.mem_cons_of_mem f hg)
    obtain ⟨ih1, ih2⟩ := ih fs hrest
    unfold processFiles
    rw [file_to_dict_of_not_vanishes f hf]
    by_cases hsel : f.mtime < datetime_to_epochs c
    · simp [selectedByCutoff, shift_mtime, List.filter_cons, hsel, ih1, ih2, recordString]
    · simp [selectedByCutoff, shift_mtime, List.filter_cons, hsel, ih1, ih2]

/-- C1: for every file processed at any point of a run (any filesystem
state, any remaining files), selection is decided by the raw `mtime`
alone — the file contributes a record exactly when its `mtime_epoch` is
strictly below the cutoff, whatever its `ctime` — while the record emitted
for a selected file is anchored to `max(mtime_epoch, ctime_epoch)`. -/
theorem filter_on_mtime_anchor_on_max (f : FileInfo) (rest : List FileInfo) (m d : Nat)
    (cutoff : DateTime) (fs : FSDir) (hv : f.vanishes = false) :
    processFiles m d cutoff fs (f :: rest)
      = if f.mtime < datetime_to_epochs cutoff
        then (("file:" ++ f.path ++ ",new_mtime:" ++
            datetime_to_datetime_str
              (add_months_days_to_datetime (epochs_to_datetime (max f.mtime f.ctime)) m d))
            :: (processFiles m d cutoff fs rest).1,
          (processFiles m d cutoff fs rest).2)
        else processFiles m d cutoff fs rest := by
  conv_lhs => unfold processFiles
  rw [file_to_dict_of_not_vanishes f hv]
  by_cases hsel : f.mtime < datetime_to_epochs cutoff
  · simp [selectedByCutoff, shift_mtime, hsel]
  · simp [selectedByCutoff, shift_mtime, hsel]

/-- Witness for C1: mtime 2023-01-01, ctime 2023-05-01, cutoff 2023-06-01,
zero offset — the file is selected (its mtime precedes the cutoff even
though its ctime is recent) and the emitted record is anchored to the
ctime 2023-05-01. -/
theorem filter_on_mtime_anchor_on_max_instance :
    processFiles 0 0 ⟨2023, 6, 1, 0⟩ FSDir.nil
        [⟨"/r/a", false, false, 0, 1672531200, 1682899200⟩]
      = (["file:/r/a,new_mtime:2023-05-01"], true, FSDir.nil) := by
  rw [filter_on_mtime_anchor_on_max ⟨"/r/a", false, false, 0, 1672531200, 1682899200⟩
    [] 0 0 ⟨2023, 6, 1, 0⟩ FSDir.nil rfl]
  decide

/-- C9: in a run where every walked file is still present when statted,
the pipeline emits exactly one record per selected file, in walk order, of
the form `file:<path>,new_mtime:<formatted shifted datetime>`. -/
theorem one_record_per_selected_file (m d : Nat) (cutoff : DateTime) (root : FSDir)
    (h : ∀ f ∈ (yield_files_recursive root).1, f.vanishes = false) :
    (shift_files_mtimes_recursively m d cutoff root).1
      = ((yield_files_recursive root).1.filter
          fun f => decide (f.mtime < datetime_to_epochs cutoff)).map (recordString m d) ∧
    ∀ f : FileInfo, recordString m d f
      = "file:" ++ f.path ++ ",new_mtime:" ++
        datetime_to_datetime_str
          (add_months_days_to_datetime (epochs_to_datetime (max f.mtime f.ctime)) m d) :=
  ⟨(processFiles_no_vanish m d cutoff root (yield_files_recursive root).1 h).1,
    fun _ => rfl⟩

/-- Witness for C9: a two-file listing in which the first file is selected
and the second is not; exactly one record is emitted, for the first file. -/
theorem one_record_per_selected_file_instance :
    (shift_files_mtimes_recursively 1 0 ⟨2023, 6, 1, 0⟩
        (FSDir.file ⟨"/r/a", false, false, 0, 1672531200, 1682899200⟩
          (FSDir.file ⟨"/r/b", false, false, 0, 1690000000, 1690000000⟩ FSDir.nil))).1
      = ["file:/r/a,new_mtime:2023-06-01"] := by
  have h := (one_record_per_selected_file 1 0 ⟨2023, 6, 1, 0⟩
    (FSDir.file ⟨"/r/a", false, false, 0, 1672531200, 1682899200⟩
      (FSDir.file ⟨"/r/b", false, false, 0, 1690000000, 1690000000⟩ FSDir.nil))
    (by decide)).1
  rw [h]
  decide

/-!
## Claims about failure behaviour
-/

/-- C4 is false as stated on the code: with an unreadable subdirectory
`/r/bad` followed by a readable sibling `/r/ok` containing a file, the walk
raises (`false` flag) and the sibling's file is not yielded; making
`/r/bad` readable shows the sibling's file would otherwise appear. -/
theorem walk_aborts_on_unreadable_subdir_cex :
    yield_files_recursive
        (FSDir.file ⟨"/r/a", false, false, 0, 100, 100⟩
          (FSDir.sub "/r/bad" false false
            (FSDir.file ⟨"/r/bad/b", false, false, 0, 100, 100⟩ FSDir.nil)
            (FSDir.sub "/r/ok" false true
              (FSDir.file ⟨"/r/ok/c", false, false, 0, 100, 100⟩ FSDir.nil) FSDir.nil)))
      = ([⟨"/r/a", false, false, 0, 100, 100⟩], false) ∧
    yield_files_recursive
        (FSDir.file ⟨"/r/a", false, false, 0, 100, 100⟩
          (FSDir.sub "/r/bad" false true
            (FSDir.file ⟨"/r/bad/b", false, false, 0, 100, 100⟩ FSDir.nil)
            (FSDir.sub "/r/ok" false true
              (FSDir.file ⟨"/r/ok/c", false, false, 0, 100, 100⟩ FSDir.nil) FSDir.nil)))
      = ([⟨"/r/a", false, false, 0, 100, 100⟩, ⟨"/r/bad/b", false, false, 0, 100, 100⟩,
          ⟨"/r/ok/c", false, false, 0, 100, 100⟩], true) ∧
    ¬ ((⟨"/r/ok/c", false, false, 0, 100, 100⟩ : FileInfo) ∈
      (yield_files_recursive
        (FSDir.file ⟨"/r/a", false, false, 0, 100, 100⟩
          (FSDir.sub "/r/bad" false false
            (FSDir.file ⟨"/r/bad/b", false, false, 0, 100, 100⟩ FSDir.nil)
            (FSDir.sub "/r/ok" false true
              (FSDir.file ⟨"/r/ok/c", false, false, 0, 100, 100⟩ FSDir.nil) FSDir.nil)))).1) :=
  ⟨by decide, by decide, by decide⟩

/-- C4 amended: a traversal that meets an unreadable (non-symlink)
subdirectory raises rather than completing, and at the unreadable entry the
walk stops immediately: nothing of that subtree and nothing after it is
yielded. -/
theorem walk_error_propagates (d : FSDir) (h : hasRealUnreadableDir d = true) :
    (yield_files_recursive d).2 = false ∧
    ∀ (p : String) (cs rest : FSDir), walkSubdirs (FSDir.sub p false false cs rest) = ([], false) := by
  refine ⟨?_, fun p cs rest => rfl⟩
  show (walkSubdirs d).2 = false
  induction d with
  | nil => exact absurd h (by simp [hasRealUnreadableDir])
  | file info rest ih => exact ih h
  | sub p sym readable cs rest ihcs ihrest =>
    cases sym with
    | true =>
      simp only [hasRealUnreadableDir, Bool.not_true, Bool.false_and, Bool.false_or] at h
      simpa only [walkSubdirs, if_true] using ihrest h
    | false =>
      cases readable with
      | false => rfl
      | true =>
        simp only [hasRealUnreadableDir, Bool.not_false, Bool.not_true, Bool.true_and,
          Bool.false_or] at h
        show (walkSubdirs (FSDir.sub p false true cs rest)).2 = false
        unfold walkSubdirs
        simp only [Bool.false_eq_true, if_false, if_true]
        rcases hcs : walkSubdirs cs with ⟨out, ok⟩
        cases ok
        · rfl
        · exact ihrest h

/-- Witness for the amended C4 at a one-entry listing holding only an
unreadable subdirectory. -/
theorem walk_error_propagates_instance :
    hasRealUnreadableDir (FSDir.sub "/r/bad" false false FSDir.nil FSDir.nil) = true ∧
    ((yield_files_recursive (FSDir.sub "/r/bad" false false FSDir.nil FSDir.nil)).2 = false ∧
      ∀ (p : String) (cs rest : FSDir),
        walkSubdirs (FSDir.sub p false false cs rest) = ([], false)) :=
  ⟨by decide, walk_error_propagates _ (by decide)⟩

/-- C5 is false as stated on the code: with `/r/v` vanishing between the
walk and its stat, the run stops at it — the later file `/r/b` is not
processed and the run does not complete (`false` flag); without the
vanishing, both `/r/v` and `/r/b` are processed. -/
theorem run_aborts_on_vanished_file_cex :
    shift_files_mtimes_recursively 1 0 ⟨2023, 6, 1, 0⟩
        (FSDir.file ⟨"/r/a", false, false, 0, 1672531200, 1682899200⟩
          (FSDir.file ⟨"/r/v", false, true, 0, 1500, 1500⟩
            (FSDir.file ⟨"/r/b", false, false, 0, 1000, 1000⟩ FSDir.nil)))
      = (["file:/r/a,new_mtime:2023-06-01"], false,
          FSDir.file ⟨"/r/a", false, false, 0, 1672531200, 1682899200⟩
            (FSDir.file ⟨"/r/v", false, true, 0, 1500, 1500⟩
              (FSDir.file ⟨"/r/b", false, false, 0, 1000, 1000⟩ FSDir.nil))) ∧
    (shift_files_mtimes_recursively 1 0 ⟨2023, 6, 1, 0⟩
        (FSDir.file ⟨"/r/a", false, false, 0, 1672531200, 1682899200⟩
          (FSDir.file ⟨"/r/v", false, false, 0, 1500, 1500⟩
            (FSDir.file ⟨"/r/b", false, false, 0, 1000, 1000⟩ FSDir.nil)))).1
      = ["file:/r/a,new_mtime:2023-06-01", "file:/r/v,new_mtime:1970-02-01",
          "file:/r/b,new_mtime:1970-02-01"] ∧
    ¬ ("file:/r/b,new_mtime:1970-02-01" ∈
      (shift_files_mtimes_recursively 1 0 ⟨2023, 6, 1, 0⟩
        (FSDir.file ⟨"/r/a", false, false, 0, 1672531200, 1682899200⟩
          (FSDir.file ⟨"/r/v", false, true, 0, 1500, 1500⟩
            (FSDir.file ⟨"/r/b", false, false, 0, 1000, 1000⟩ FSDir.nil)))).1) :=
  ⟨by decide, by decide, by decide⟩

/-- C5 amended: a file that vanishes before its stat aborts the run: the
`FileNotFoundError` propagates, so the run's completion flag is `false`,
and consumption stops at the vanished file — no later file is processed. -/
theorem vanished_file_aborts_run (m d : Nat) (c : DateTime) (fs : FSDir)
    (l : List FileInfo) (h : anyVanishes l = true) :
    (processFiles m d c fs l).2.1 = false ∧
    ∀ (f : FileInfo) (rest : List FileInfo), f.vanishes = true →
      processFiles m d c fs (f :: rest) = ([], false, fs) := by
  have hstop : ∀ (fs2 : FSDir) (f : FileInfo) (rest : List FileInfo), f.vanishes = true →
      processFiles m d c fs2 (f :: rest) = ([], false, fs2) := by
    intro fs2 f rest hv
    unfold processFiles file_to_dict
    rw [hv]
    rfl
  refine ⟨?_, hstop fs⟩
  induction l generalizing fs with
  | nil => simp [anyVanishes] at h
  | cons f rest ih =>
    by_cases hv : f.vanishes = true
    · rw [hstop fs f rest hv]
    · have hv2 : f.vanishes = false := by revert hv; cases f.vanishes <;> simp
      have hrest : anyVanishes rest = true := by
        simpa [anyVanishes, hv2] using h
      unfold processFiles
      rw [file_to_dict_of_not_vanishes f hv2]
      by_cases hsel : f.mtime < datetime_to_epochs c
      · simp only [selectedByCutoff, hsel, decide_True, if_true, shift_mtime]
        exact ih fs hrest
      · simp only [selectedByCutoff, hsel, decide_False, Bool.false_eq_true, if_false]
        exact ih fs hrest

/-- Witness for the amended C5 at a concrete two-file list whose first
file vanishes. -/
theorem vanished_file_aborts_run_instance :
    anyVanishes [⟨"/r/v", false, true, 0, 1500, 1500⟩,
        ⟨"/r/b", false, false, 0, 1000, 1000⟩] = true ∧
    ((processFiles 1 0 ⟨2023, 6, 1, 0⟩ FSDir.nil
        [⟨"/r/v", false, true, 0, 1500, 1500⟩,
          ⟨"/r/b", false, false, 0, 1000, 1000⟩]).2.1 = false ∧
      ∀ (f : FileInfo) (rest : List FileInfo), f.vanishes = true →
        processFiles 1 0 ⟨2023, 6, 1, 0⟩ FSDir.nil (f :: rest) = ([], false, FSDir.nil)) :=
  ⟨by decide, vanished_file_aborts_run 1 0 ⟨2023, 6, 1, 0⟩ FSDir.nil _ (by decide)⟩

/-!
## Symlink exclusion
-/

theorem mem_yield_files {d : FSDir} {f : FileInfo} (h : f ∈ yield_files d) :
    f.symlink = false ∧ ViaRealDirs d f := by
  induction d with
  | nil => simp [yield_files] at h
  | file info rest ih =>
    unfold yield_files at h
    by_cases hs : info.symlink = true
    · rw [if_pos hs] at h
      obtain ⟨h1, h2⟩ := ih h
      exact ⟨h1, ViaRealDirs.skipFile info rest f h2⟩
    · have hs2 : info.symlink = false := by revert hs; cases info.symlink <;> simp
      rw [if_neg hs] at h
      rcases List.mem_cons.mp h with heq | hmem
      · subst heq; exact ⟨hs2, ViaRealDirs.here f rest⟩
      · obtain ⟨h1, h2⟩ := ih hmem
        exact ⟨h1, ViaRealDirs.skipFile info rest f h2⟩
  | sub p sym readable cs rest ihcs ihrest =>
    obtain ⟨h1, h2⟩ := ihrest h
    exact ⟨h1, ViaRealDirs.skipDir p sym readable cs rest f h2⟩

theorem mem_walkSubdirs {d : FSDir} {f : FileInfo} (h : f ∈ (walkSubdirs d).1) :
    f.symlink = false ∧ ViaRealDirs d f := by
  induction d with
  | nil => simp [walkSubdirs] at h
  | file info rest ih =>
    obtain ⟨h1, h2⟩ := ih h
    exact ⟨h1, ViaRealDirs.skipFile info rest f h2⟩
  | sub p sym readable cs rest ihcs ihrest =>
    cases sym with
    | true =>
      have h0 : f ∈ (walkSubdirs rest).1 := h
      obtain ⟨h1, h2⟩ := ihrest h0
      exact ⟨h1, ViaRealDirs.skipDir p true readable cs rest f h2⟩
    | false =>
      cases readable with
      | false => simp [walkSubdirs] at h
      | true =>
        unfold walkSubdirs at h
        simp only [Bool.false_eq_true, if_false, if_true] at h
        rcases hcs : walkSubdirs cs with ⟨out, ok⟩
        rw [hcs] at h
        have hout : out = (walkSubdirs cs).1 := by rw [hcs]
        cases ok with
        | true =>
          simp only [List.append_assoc, List.mem_append] at h
          rcases h with hy | hc | hr
          · obtain ⟨h1, h2⟩ := mem_yield_files hy
            exact ⟨h1, ViaRealDirs.intoDir p true cs rest f h2⟩
          · obtain ⟨h1, h2⟩ := ihcs (hout ▸ hc)
            exact ⟨h1, ViaRealDirs.intoDir p true cs rest f h2⟩
          · obtain ⟨h1, h2⟩ := ihrest hr
            exact ⟨h1, ViaRealDirs.skipDir p false true cs rest f h2⟩
        | false =>
          simp only [List.mem_append] at h
          rcases h with hy | hc
          · obtain ⟨h1, h2⟩ := mem_yield_files hy
            exact ⟨h1, ViaRealDirs.intoDir p true cs rest f h2⟩
          · obtain ⟨h1, h2⟩ := ihcs (hout ▸ hc)
            exact ⟨h1, ViaRealDirs.intoDir p true cs rest f h2⟩

/-- C7: the walker never yields a symbolic link, and every yielded file is
reachable from the root listing through non-symlink directory entries
only — so neither a symlinked file nor any file inside a symlinked
directory appears in the output. -/
theorem walker_excludes_symlinks (d : FSDir) (f : FileInfo)
    (h : f ∈ (yield_files_recursive d).1) :
    f.symlink = false ∧ ViaRealDirs d f := by
  have h2 : f ∈ yield_files d ++ (walkSubdirs d).1 := h
  rcases List.mem_append.mp h2 with hy | hw
  · exact mem_yield_files hy
  · exact mem_walkSubdirs hw

/-- Witness for C7: in a listing with a symlinked file and a symlinked
directory, the one yielded file is the regular one, reachable without
crossing a symlink. -/
theorem walker_excludes_symlinks_instance :
    (⟨"/r/a", false, false, 0, 100, 100⟩ : FileInfo) ∈
      (yield_files_recursive
        (FSDir.file ⟨"/r/s", true, false, 0, 100, 100⟩
          (FSDir.file ⟨"/r/a", false, false, 0, 100, 100⟩
            (FSDir.sub "/r/sl" true true
              (FSDir.file ⟨"/r/sl/b", false, false, 0, 100, 100⟩ FSDir.nil) FSDir.nil)))).1 ∧
    ((⟨"/r/a", false, false, 0, 100, 100⟩ : FileInfo).symlink = false ∧
      ViaRealDirs
        (FSDir.file ⟨"/r/s", true, false, 0, 100, 100⟩
          (FSDir.file ⟨"/r/a", false, false, 0, 100, 100⟩
            (FSDir.sub "/r/sl" true true
              (FSDir.file ⟨"/r/sl/b", false, false, 0, 100, 100⟩ FSDir.nil) FSDir.nil)))
        ⟨"/r/a", false, false, 0, 100, 100⟩) :=
  ⟨by decide, walker_excludes_symlinks _ _ (by decide)⟩

end ShiftMtimes
